import Mathlib

/-!
Verification development for the prism aggregate-query engine
(src/lib/python/dp_executor.py, he_executor.py, he_context.py).

The Python source is shallowly embedded below.  Query text is modelled as
`List Char`; Python numbers (ints and floats) are modelled as exact
rationals `ℚ`; Python `None`/NaN cells are `Value.null` and other scalars
are `Value.str`.  Randomness is made explicit: each executor method takes
the value returned by its `_sample_laplace` call as an argument, and the
sampler itself is embedded separately (`sample_laplace`) parameterised by
an abstract logarithm, with the `math.log` domain guard made explicit
(Python `math.log x` raises for `x ≤ 0`, modelled as `none`).
Wall-clock quantities (`execution_time_ms`, `start_time` reads) are
environment inputs and are not part of any claim; the envelope omits the
timing field.
-/

unseal Rat.add Rat.mul Rat.inv Rat.sub Rat.ofScientific

/-- A Python scalar cell: a number, some other scalar (string), or a
missing value (`None` / NaN). -/
inductive Value where
  | num (x : ℚ)
  | str (s : String)
  | null
  deriving DecidableEq

/-- `str.lower()` on query text. -/
def lowerStr (s : List Char) : List Char := s.map Char.toLower

/-- `str.upper()` on query text. -/
def upperStr (s : List Char) : List Char := s.map Char.toUpper

/-- `str.strip()`: drop whitespace from both ends. -/
def pyStrip (s : List Char) : List Char :=
  ((s.dropWhile Char.isWhitespace).reverse.dropWhile Char.isWhitespace).reverse

/-- Helper for `str.find`: first index `≥ i` at which `pat` occurs in `s`,
counting from the offset `i`. -/
def findSubAux (pat : List Char) : List Char → Nat → Option Nat
  | [], i => if pat = [] then some i else none
  | c :: t, i => if pat.isPrefixOf (c :: t) then some i else findSubAux pat t (i + 1)

/-- `s.find(pat)`: index of the first occurrence of `pat` in `s`
(`none` models Python's `-1`). -/
def findSub (pat s : List Char) : Option Nat := findSubAux pat s 0

/-- `s.find(pat, start)`: first occurrence of `pat` at index `≥ start`. -/
def findFrom (pat s : List Char) (start : Nat) : Option Nat :=
  findSubAux pat (s.drop start) start

/-- Python's `pat in s` substring test. -/
def containsSub (pat s : List Char) : Bool := (findSub pat s).isSome

/-- Python's binary `max(a, b)` on numbers (written out so that concrete
instances evaluate inside the kernel). -/
def qmax (a b : ℚ) : ℚ := if a ≤ b then b else a

/-- Python's binary `min(a, b)` on numbers. -/
def qmin (a b : ℚ) : ℚ := if a ≤ b then a else b

/-- Python's built-in `round(x)`: round half to even, returning an integer.
Floats are modelled as exact rationals. -/
def pyHalfEven (x : ℚ) : ℤ :=
  let f := x.floor
  let frac := x - (f : ℚ)
  if frac < 1/2 then f
  else if 1/2 < frac then f + 1
  else if f % 2 = 0 then f else f + 1

/-- Python's `round(x, ndigits)` at `ndigits` decimal digits. -/
def pyRoundTo (ndigits : Nat) (x : ℚ) : ℚ :=
  (pyHalfEven (x * (10 : ℚ) ^ ndigits) : ℚ) / (10 : ℚ) ^ ndigits

/-- Truncation toward zero, as performed by `int(...)` and by
pandas/numpy `astype(int)` on floats. -/
def truncQ (x : ℚ) : ℤ := if 0 ≤ x then x.floor else x.ceil

/-- Python `min` over a list (`none` for the empty list, which raises). -/
def pyMin : List ℚ → Option ℚ
  | [] => none
  | x :: t => some (t.foldl qmin x)

/-- Python `max` over a list (`none` for the empty list, which raises). -/
def pyMax : List ℚ → Option ℚ
  | [] => none
  | x :: t => some (t.foldl qmax x)

/-- `row[i]`.  Rows are assumed to have one cell per column (data-model
invariant of §3 of the design); out-of-range reads are modelled as a
missing cell. -/
def getCell (row : List Value) (i : Nat) : Value := row.getD i Value.null

/-- `isinstance(v, (int, float))`, extracting the numeric value. -/
def asNum : Value → Option ℚ
  | Value.num x => some x
  | _ => none

/-- The list comprehension
`[row[i] for row in data if isinstance(row[i], (int, float))]`. -/
def numCells (data : List (List Value)) (i : Nat) : List ℚ :=
  data.filterMap (fun row => asNum (getCell row i))

/-- `self.columns.index(c)` (only used under a membership guard, like the
source). -/
def pyIndex (c : List Char) : List (List Char) → Nat
  | [] => 0
  | x :: t => if x = c then 0 else pyIndex c t + 1

/-- The caller-supplied `bounds` JSON object, an association of column
names to `[lower, upper]`. -/
def BoundsMap : Type := List (List Char × ℚ × ℚ)

/-- Dict lookup `bounds[c]` guarded by `c in bounds`. -/
def lookupBounds : BoundsMap → List Char → Option (ℚ × ℚ)
  | [], _ => none
  | b :: t, c => if b.1 = c then some b.2 else lookupBounds t c

/-- String literal `'count'`. -/
def sCount : List Char := "count".data

/-- String literal `'sum'`. -/
def sSum : List Char := "sum".data

/-- String literal `'avg'`. -/
def sAvg : List Char := "avg".data

/-- String literal `'average'`. -/
def sAverage : List Char := "average".data

/-- String literal `'min'`. -/
def sMin : List Char := "min".data

/-- String literal `'max'`. -/
def sMax : List Char := "max".data

/-- String literal `'count('`. -/
def kwCount : List Char := "count(".data

/-- String literal `'sum('`. -/
def kwSum : List Char := "sum(".data

/-- String literal `'avg('`. -/
def kwAvg : List Char := "avg(".data

/-- String literal `'average('`. -/
def kwAverage : List Char := "average(".data

/-- String literal `'min('`. -/
def kwMin : List Char := "min(".data

/-- String literal `'max('`. -/
def kwMax : List Char := "max(".data

/-- String literal `'laplace'`. -/
def sLaplace : List Char := "laplace".data

/-- String literal `'*'`. -/
def sStar : List Char := "*".data

/-- The error message of the source's
`f-string Column ... not found` (apostrophes around the name elided). -/
def errColumnNotFound (c : Option (List Char)) : List Char :=
  "Column ".data ++ c.getD "None".data ++ " not found".data

/-- The error message `No numeric values found`. -/
def errNoNumericValues : List Char := "No numeric values found".data

/-- The error message prefixed `Unsupported query operation: `. -/
def errUnsupportedOperation (q : List Char) : List Char :=
  "Unsupported query operation: ".data ++ q

/-- `DPExecutor.__init__` state: the fields assigned in the constructor.
`start_time` is the wall-clock stamp `time.time()`, an environment input. -/
structure DPExecutor where
  data : List (List Value)
  columns : List (List Char)
  epsilon : ℚ
  delta : ℚ
  start_time : ℚ
  deriving DecidableEq

/-- The result dictionary built by the `DPExecutor._execute_*` methods.
Python returns dicts whose keys vary by operation; a key the source does
not set for a given operation is modelled by the field's default value.
Metadata keys (`operation`, `sensitivity`, `true_count`, ...) are inlined
as fields; `execution_time_ms` (wall clock) is omitted. -/
structure Envelope where
  success : Bool
  error : Option (List Char) := none
  result : List (List Char × ℚ) := []
  epsilon_consumed : ℚ := 0
  delta : ℚ := 0
  mechanism : List Char := []
  noise_scale : ℚ := 0
  operation : List Char := []
  column : Option (List Char) := none
  sensitivity : ℚ := 0
  sensitivity_sum : ℚ := 0
  sensitivity_count : ℚ := 0
  boundsUsed : Option (ℚ × ℚ) := none
  true_count : Nat := 0
  true_sum : ℚ := 0
  true_avg : ℚ := 0
  true_min : ℚ := 0
  true_max : ℚ := 0
  noise_added : ℚ := 0
  noisy_sum : ℚ := 0
  noisy_count : ℚ := 0
  epsilon_split_sum : ℚ := 0
  epsilon_split_count : ℚ := 0
  clamped_values : Nat := 0
  fallback : Bool := false
  deriving DecidableEq

/-- `math.copysign(1, u)` (for rationals; `u = 0` models float `+0.0`). -/
def copysign1 (u : ℚ) : ℚ := if 0 ≤ u then 1 else -1

/-- `DPExecutor._sample_laplace(loc, scale)` as a function of the uniform
draw `u = random.random() - 0.5 ∈ [-1/2, 1/2)`.  The natural logarithm is
abstracted as `ln`; Python's `math.log` raises `ValueError` on a
non-positive argument, modelled by `none`.  The source computes
`loc - scale * copysign(1, u) * log(1 - 2*abs(u))` with no special-case
or clamping of `u`. -/
def sample_laplace (ln : ℚ → ℚ) (loc scale u : ℚ) : Option ℚ :=
  if 0 < 1 - 2 * |u| then some (loc - scale * copysign1 u * ln (1 - 2 * |u|))
  else none

/-- `DPExecutor._extract_column(query, operation)`: find
`operation + '('` in the lowercased query, then slice the original-case
query up to the next `')'`, strip it, and keep the suffix after the last
`'.'` if a dot is present. -/
def _extract_column (query : List Char) (operation : List Char) : Option (List Char) :=
  let query_lower := lowerStr query
  match findSub (operation ++ "(".data) query_lower with
  | none => none
  | some op_start =>
    let paren_start := op_start + operation.length + 1
    match findFrom ")".data query paren_start with
    | none => none
    | some paren_end =>
      let column := pyStrip ((query.take paren_end).drop paren_start)
      let column :=
        if containsSub ".".data column then (List.splitOn '.' column).getLastD []
        else column
      some column

/-- The bounds resolution shared by `_execute_sum` and `_execute_avg`:
caller bounds if present, else `(min(values) if values else 0,
max(values) if values else 100)` over the column's numeric cells. -/
def resolveBoundsSA (ex : DPExecutor) (bounds : BoundsMap) (column : List Char) : ℚ × ℚ :=
  match lookupBounds bounds column with
  | some lu => lu
  | none =>
    let values := numCells ex.data (pyIndex column ex.columns)
    ((pyMin values).getD 0, (pyMax values).getD 100)

/-- The comprehension
`[max(lower, min(upper, row[i])) for row in data if isinstance(row[i], (int, float))]`. -/
def clampedColumn (ex : DPExecutor) (column : List Char) (lower_bound upper_bound : ℚ) : List ℚ :=
  (numCells ex.data (pyIndex column ex.columns)).map
    (fun x => qmax lower_bound (qmin upper_bound x))

/-- `DPExecutor._execute_count`: true count is `len(self.data)` (the query
text and bounds are not consulted); sensitivity 1; noisy count floored at
0 and rounded to an integer.  `noise` is the `_sample_laplace(0, scale)`
draw. -/
def _execute_count (ex : DPExecutor) (_query : List Char) (_bounds : BoundsMap)
    (noise : ℚ) : Envelope :=
  let true_count := ex.data.length
  let sensitivity : ℚ := 1
  let noise_scale := sensitivity / ex.epsilon
  let noisy_count := qmax 0 ((true_count : ℚ) + noise)
  { success := true
    result := [(sCount, (pyHalfEven noisy_count : ℚ))]
    epsilon_consumed := ex.epsilon
    delta := ex.delta
    mechanism := sLaplace
    noise_scale := pyRoundTo 3 noise_scale
    operation := sCount
    sensitivity := sensitivity
    true_count := true_count
    noise_added := pyRoundTo 2 noise
    fallback := false }

/-- `DPExecutor._execute_sum`: extract the column, resolve bounds, clamp
the numeric cells, sum, add Laplace noise of scale
`(upper - lower) / epsilon`. -/
def _execute_sum (ex : DPExecutor) (query : List Char) (bounds : BoundsMap)
    (noise : ℚ) : Envelope :=
  match _extract_column query sSum with
  | none => { success := false, error := some (errColumnNotFound none) }
  | some column =>
    if column = [] ∨ column ∉ ex.columns then
      { success := false, error := some (errColumnNotFound (some column)) }
    else
      let lu := resolveBoundsSA ex bounds column
      let lower_bound := lu.1
      let upper_bound := lu.2
      let clamped_values := clampedColumn ex column lower_bound upper_bound
      let true_sum := clamped_values.sum
      let sensitivity := upper_bound - lower_bound
      let noise_scale := sensitivity / ex.epsilon
      let noisy_sum := true_sum + noise
      { success := true
        result := [(sSum, pyRoundTo 2 noisy_sum)]
        epsilon_consumed := ex.epsilon
        delta := ex.delta
        mechanism := sLaplace
        noise_scale := pyRoundTo 3 noise_scale
        operation := sSum
        column := some column
        sensitivity := pyRoundTo 2 sensitivity
        boundsUsed := some (lower_bound, upper_bound)
        true_sum := pyRoundTo 2 true_sum
        noise_added := pyRoundTo 2 noise
        clamped_values := clamped_values.length
        fallback := false }

/-- `DPExecutor._execute_avg`: clamp as for SUM, then split epsilon in
half between a noisy sum (sensitivity `upper - lower`) and a noisy count
(sensitivity 1, floored at 1), and divide.  `noise_sum` and `noise_count`
are the two `_sample_laplace` draws, in source order. -/
def _execute_avg (ex : DPExecutor) (query : List Char) (bounds : BoundsMap)
    (noise_sum noise_count : ℚ) : Envelope :=
  match _extract_column query sAvg with
  | none => { success := false, error := some (errColumnNotFound none) }
  | some column =>
    if column = [] ∨ column ∉ ex.columns then
      { success := false, error := some (errColumnNotFound (some column)) }
    else
      let lu := resolveBoundsSA ex bounds column
      let lower_bound := lu.1
      let upper_bound := lu.2
      let clamped_values := clampedColumn ex column lower_bound upper_bound
      let count := clamped_values.length
      let true_sum := clamped_values.sum
      let true_avg := if 0 < count then true_sum / (count : ℚ) else 0
      let epsilon_sum := ex.epsilon / 2
      let epsilon_count := ex.epsilon / 2
      let sensitivity_sum := upper_bound - lower_bound
      let noise_scale_sum := sensitivity_sum / epsilon_sum
      let noisy_sum := true_sum + noise_sum
      let sensitivity_count : ℚ := 1
      let noisy_count := qmax 1 ((count : ℚ) + noise_count)
      let noisy_avg := noisy_sum / noisy_count
      { success := true
        result := [(sAverage, pyRoundTo 2 noisy_avg)]
        epsilon_consumed := ex.epsilon
        delta := ex.delta
        mechanism := sLaplace
        noise_scale := pyRoundTo 3 noise_scale_sum
        operation := sAvg
        column := some column
        sensitivity_sum := pyRoundTo 2 sensitivity_sum
        sensitivity_count := sensitivity_count
        boundsUsed := some (lower_bound, upper_bound)
        true_avg := pyRoundTo 2 true_avg
        true_sum := pyRoundTo 2 true_sum
        true_count := count
        noisy_sum := pyRoundTo 2 noisy_sum
        noisy_count := pyRoundTo 2 noisy_count
        epsilon_split_sum := epsilon_sum
        epsilon_split_count := epsilon_count
        fallback := false }

/-- The bounds resolution of `_execute_min`/`_execute_max`: caller bounds
if present, else `(min(values), max(values))` (the `values ≠ []` guard of
the source makes the defaults unreachable). -/
def resolveBoundsMM (bounds : BoundsMap) (column : List Char) (values : List ℚ) : ℚ × ℚ :=
  match lookupBounds bounds column with
  | some lu => lu
  | none => ((pyMin values).getD 0, (pyMax values).getD 0)

/-- `DPExecutor._execute_min`: the true minimum is taken over the raw
(unclamped) numeric cells and the noisy output is not re-clamped. -/
def _execute_min (ex : DPExecutor) (query : List Char) (bounds : BoundsMap)
    (noise : ℚ) : Envelope :=
  match _extract_column query sMin with
  | none => { success := false, error := some (errColumnNotFound none) }
  | some column =>
    if column = [] ∨ column ∉ ex.columns then
      { success := false, error := some (errColumnNotFound (some column)) }
    else
      let values := numCells ex.data (pyIndex column ex.columns)
      if values = [] then { success := false, error := some errNoNumericValues }
      else
        let true_min := (pyMin values).getD 0
        let lu := resolveBoundsMM bounds column values
        let lower_bound := lu.1
        let upper_bound := lu.2
        let sensitivity := upper_bound - lower_bound
        let noise_scale := sensitivity / ex.epsilon
        let noisy_min := true_min + noise
        { success := true
          result := [(sMin, pyRoundTo 2 noisy_min)]
          epsilon_consumed := ex.epsilon
          delta := ex.delta
          mechanism := sLaplace
          noise_scale := pyRoundTo 3 noise_scale
          operation := sMin
          column := some column
          sensitivity := pyRoundTo 2 sensitivity
          boundsUsed := some (lower_bound, upper_bound)
          true_min := pyRoundTo 2 true_min
          noise_added := pyRoundTo 2 noise
          fallback := false }

/-- `DPExecutor._execute_max`: symmetric to `_execute_min`. -/
def _execute_max (ex : DPExecutor) (query : List Char) (bounds : BoundsMap)
    (noise : ℚ) : Envelope :=
  match _extract_column query sMax with
  | none => { success := false, error := some (errColumnNotFound none) }
  | some column =>
    if column = [] ∨ column ∉ ex.columns then
      { success := false, error := some (errColumnNotFound (some column)) }
    else
      let values := numCells ex.data (pyIndex column ex.columns)
      if values = [] then { success := false, error := some errNoNumericValues }
      else
        let true_max := (pyMax values).getD 0
        let lu := resolveBoundsMM bounds column values
        let lower_bound := lu.1
        let upper_bound := lu.2
        let sensitivity := upper_bound - lower_bound
        let noise_scale := sensitivity / ex.epsilon
        let noisy_max := true_max + noise
        { success := true
          result := [(sMax, pyRoundTo 2 noisy_max)]
          epsilon_consumed := ex.epsilon
          delta := ex.delta
          mechanism := sLaplace
          noise_scale := pyRoundTo 3 noise_scale
          operation := sMax
          column := some column
          sensitivity := pyRoundTo 2 sensitivity
          boundsUsed := some (lower_bound, upper_bound)
          true_max := pyRoundTo 2 true_max
          noise_added := pyRoundTo 2 noise
          fallback := false }

/-- `DPExecutor.execute_query`: substring dispatch on the lowercased query
text, in source order.  The method mutates nothing, so it is embedded in
state-passing style, each branch returning the executor state it leaves
behind together with the result dictionary.  `noise1` is the first
`_sample_laplace` draw of the chosen branch and `noise2` the second (used
only by AVG). -/
def execute_query (ex : DPExecutor) (query : List Char) (bounds : BoundsMap)
    (noise1 noise2 : ℚ) : DPExecutor × Envelope :=
  let query_lower := lowerStr query
  if containsSub kwCount query_lower then (ex, _execute_count ex query bounds noise1)
  else if containsSub kwSum query_lower then (ex, _execute_sum ex query bounds noise1)
  else if containsSub kwAvg query_lower || containsSub kwAverage query_lower then
    (ex, _execute_avg ex query bounds noise1 noise2)
  else if containsSub kwMin query_lower then (ex, _execute_min ex query bounds noise1)
  else if containsSub kwMax query_lower then (ex, _execute_max ex query bounds noise1)
  else (ex, { success := false, error := some (errUnsupportedOperation query) })

/-- `pd.notna(v)`: true for every non-missing scalar. -/
def notna : Value → Bool
  | Value.null => false
  | _ => true

/-- `pandas` column access `self.df[c]`: the cells of column `c`, or
`none` for a `KeyError` (caught at `main`'s top level). -/
def dfColumn (data : List (List Value)) (columns : List (List Char))
    (c : List Char) : Option (List Value) :=
  if c ∈ columns then some (data.map (fun row => getCell row (pyIndex c columns)))
  else none

/-- `Series.astype(int)` cell conversion: floats truncate toward zero,
non-numeric scalars raise (`none`, caught at `main`'s top level). -/
def cellToInt : Value → Option ℤ
  | Value.num x => some (truncQ x)
  | _ => none

/-- `Series.astype(int).tolist()` over already-`dropna`ed cells. -/
def astypeInt (cells : List Value) : Option (List ℤ) := cells.mapM cellToInt

/-- The ideal additively-homomorphic round trip of the external TenSEAL
collaborator (`he_context.py`): `encrypt_vector`, ciphertext `.sum()`,
`decrypt_vector` compose to the plain sum of the vector. -/
def heSumVector (v : List ℚ) : ℚ := v.sum

/-- The clamping step of `HeQueryExecutor.execute_sum`:
`[max(lower, min(upper, val)) for val in column_data]` when bounds are
provided, the identity otherwise. -/
def clampOpt (bounds : Option (ℚ × ℚ)) (ints : List ℤ) : List ℚ :=
  match bounds with
  | some lu => ints.map (fun v => qmax lu.1 (qmin lu.2 (v : ℚ)))
  | none => ints.map (fun v => (v : ℚ))

/-- The result dictionary of the HE path.  Keys that `main` only adds on
success (`mechanism`, `epsilon_consumed`, `delta`, `noise_scale`) are
`Option`s, `none` meaning the key is absent from the dict. -/
structure HeEnvelope where
  success : Bool
  error : Option (List Char) := none
  result : List (List Char × ℚ) := []
  mechanism : Option (List Char) := none
  epsilon_consumed : Option ℚ := none
  delta : Option ℚ := none
  noise_scale : Option ℚ := none
  operation : List Char := []
  records_encrypted : Nat := 0
  bounds_applied : Bool := false
  deriving DecidableEq

/-- `HeQueryExecutor.execute_count`: encrypt a 0/1 indicator vector
(`1 if pd.notna(val) else 0` when a column is named, all-ones otherwise)
and sum it homomorphically.  `none` models an uncaught exception
(pandas `KeyError` on an unknown column). -/
def he_execute_count (data : List (List Value)) (columns : List (List Char))
    (column : Option (List Char)) : Option HeEnvelope :=
  match column with
  | some c =>
    match dfColumn data columns c with
    | none => none
    | some cells =>
      let count_vector := cells.map (fun v => if notna v then (1 : ℚ) else 0)
      let count_result := truncQ (heSumVector count_vector)
      some { success := true
             result := [(sCount, (count_result : ℚ))]
             operation := sCount
             records_encrypted := count_vector.length }
  | none =>
    let count_vector := List.replicate data.length (1 : ℚ)
    let count_result := truncQ (heSumVector count_vector)
    some { success := true
           result := [(sCount, (count_result : ℚ))]
           operation := sCount
           records_encrypted := count_vector.length }

/-- `HeQueryExecutor.execute_sum`: `df[column].dropna().astype(int)`,
early `success, sum: 0` return on an empty column, clamp to bounds when
provided, homomorphic sum, `int(...)` of the decrypted scalar.  `none`
models an uncaught exception. -/
def he_execute_sum (data : List (List Value)) (columns : List (List Char))
    (column : List Char) (bounds : Option (ℚ × ℚ)) : Option HeEnvelope :=
  match dfColumn data columns column with
  | none => none
  | some cells =>
    match astypeInt (cells.filter notna) with
    | none => none
    | some column_data =>
      if column_data = [] then
        some { success := true, result := [(sSum, 0)] }
      else
        let clamped := clampOpt bounds column_data
        let sum_result := truncQ (heSumVector clamped)
        some { success := true
               result := [(sSum, (sum_result : ℚ))]
               operation := sSum
               records_encrypted := clamped.length
               bounds_applied := bounds.isSome }

/-- The descriptor produced by `he_executor.parse_query`. -/
structure Parsed where
  operation : List Char
  column : Option (List Char)
  deriving DecidableEq

/-- One alternative of the regex `(COUNT|SUM|AVG)\s*\(([^)]*)\)` tried at
the current position: the keyword, then a whitespace run, a literal
opening parenthesis, the capture of non-`)` characters, and a closing
parenthesis. -/
def tryKw (kw s : List Char) : Option (List Char × List Char) :=
  if kw.isPrefixOf s then
    match (s.drop kw.length).dropWhile Char.isWhitespace with
    | '(' :: after =>
      let arg := after.takeWhile (fun c => c ≠ ')')
      match after.drop arg.length with
      | ')' :: _ => some (kw, arg)
      | _ => none
    | _ => none
  else none

/-- The regex alternation at one position, in source order
`COUNT`, `SUM`, `AVG`. -/
def tryAggAt (s : List Char) : Option (List Char × List Char) :=
  match tryKw "COUNT".data s with
  | some r => some r
  | none =>
    match tryKw "SUM".data s with
    | some r => some r
    | none => tryKw "AVG".data s

/-- `re.search` of the aggregate regex: leftmost match wins. -/
def reSearchAgg : List Char → Option (List Char × List Char)
  | [] => none
  | c :: t =>
    match tryAggAt (c :: t) with
    | some r => some r
    | none => reSearchAgg t

/-- `he_executor.parse_query`: uppercase the stripped query, find the
aggregate, lowercase the operation, strip the argument; for COUNT a `*`
argument means no column; an empty argument means no column; column names
are lowercased. -/
def parse_query (q : List Char) : Option Parsed :=
  let Q := upperStr (pyStrip q)
  match reSearchAgg Q with
  | none => none
  | some kwArg =>
    let operation := lowerStr kwArg.1
    let column := pyStrip kwArg.2
    let column2 : Option (List Char) :=
      if operation = sCount then (if column = sStar then none else some column)
      else some column
    match column2 with
    | some col =>
      if col ≠ [] then some { operation := operation, column := some (lowerStr col) }
      else some { operation := operation, column := none }
    | none => some { operation := operation, column := none }

/-- String literal `'homomorphic_encryption'`. -/
def sHomomorphic : List Char := "homomorphic_encryption".data

/-- The generic failure envelope of `he_executor.main`'s `except` branch
(`error: str(e)`; the message text is not tracked). -/
def heExceptionEnvelope : HeEnvelope :=
  { success := false, error := some "exception".data }

/-- The AVG refusal envelope of `he_executor.main`. -/
def heAvgUnsupportedEnvelope : HeEnvelope :=
  { success := false
    error := some "AVG not yet supported in HE backend. Use SUM and COUNT separately.".data }

/-- The refusal envelope of `he_executor.main`'s final `else` branch. -/
def heOpUnsupportedEnvelope (op : List Char) : HeEnvelope :=
  { success := false
    error := some ("Operation ".data ++ op ++ " not supported in HE backend".data) }

/-- The metadata `main` adds when `result['success']` holds:
`mechanism = homomorphic_encryption`, `epsilon_consumed = 0.0`,
`delta = 0.0`, `noise_scale = 0.0`. -/
def heAddMeta (e : HeEnvelope) : HeEnvelope :=
  if e.success then
    { e with mechanism := some sHomomorphic
             epsilon_consumed := some 0
             delta := some 0
             noise_scale := some 0 }
  else e

/-- The dispatch of `he_executor.main` on an already-parsed descriptor:
run the executor, turn an exception into the failure envelope, and add
the HE metadata on success.  For SUM, the column bounds are
`tuple(bounds[column])` when the (lowercased) column is a key of the
caller's bounds mapping; a SUM with no column raises (`df[None]`). -/
def heMainParsed (p : Parsed) (data : List (List Value))
    (columns : List (List Char)) (bounds : BoundsMap) : HeEnvelope :=
  let res : Option HeEnvelope :=
    if p.operation = sCount then he_execute_count data columns p.column
    else if p.operation = sSum then
      match p.column with
      | none => none
      | some c => he_execute_sum data columns c (lookupBounds bounds c)
    else if p.operation = sAvg then some heAvgUnsupportedEnvelope
    else some (heOpUnsupportedEnvelope p.operation)
  match res with
  | none => heExceptionEnvelope
  | some e => heAddMeta e

/-- `he_executor.main` on one invocation: parse the query (a parse error
raises `ValueError`, caught by the `except` branch) and dispatch. -/
def heMain (query : List Char) (data : List (List Value))
    (columns : List (List Char)) (bounds : BoundsMap) : HeEnvelope :=
  match parse_query query with
  | none => heExceptionEnvelope
  | some p => heMainParsed p data columns bounds

/-- Follows the spec's words (§4.3, Filtering): the subset of the dataset
rows satisfying every `(columnName, literalValue)` equality filter
conjunctively.  Used only to compare the executor's behaviour against the
specified filter semantics. -/
def specFilteredRows (data : List (List Value)) (columns : List (List Char))
    (filters : List (List Char × Value)) : List (List Value) :=
  data.filter (fun row =>
    filters.all (fun f => decide (getCell row (pyIndex f.1 columns) = f.2)))

/-- Follows the spec's words (§4.3, SUM): clamp every non-missing numeric
value of the column to the resolved `[lower, upper]` and sum; with no
caller bounds the inferred `(min, max)` bounds make clamping the
identity, so the true sum is the plain sum of the numeric values.  Used
only to compare the HE executor's result against the specified "true
bound-clamped column sum". -/
def specTrueClampedSum (cells : List Value) (bounds : Option (ℚ × ℚ)) : ℚ :=
  match bounds with
  | some lu => ((cells.filterMap asNum).map (fun x => qmax lu.1 (qmin lu.2 x))).sum
  | none => (cells.filterMap asNum).sum

/-- Indicator sums count: the homomorphic COUNT vector of 0/1 entries sums
to the number of non-missing cells. -/
theorem sum_indicator_eq_countP (cells : List Value) :
    (cells.map (fun v => if notna v then (1 : ℚ) else 0)).sum
      = (cells.countP notna : ℚ) := by
  induction cells with
  | nil => simp
  | cons h t ih =>
    by_cases hn : notna h <;> simp [List.countP_cons, hn, ih, add_comm]

/-- `int(...)` of a natural number is itself. -/
theorem truncQ_natCast (n : Nat) : truncQ (n : ℚ) = (n : ℤ) := by
  simp [truncQ, Nat.cast_nonneg, Rat.floor_def', Rat.num_natCast, Rat.den_natCast]

/-- Column name `age`. -/
def cAge : List Char := "age".data

/-- Column name `x`. -/
def cX : List Char := "x".data

/-- Column name `AGE` (upper case). -/
def cAGE : List Char := "AGE".data

/-- Query text with a WHERE filter over a COUNT. -/
def qCountWhere : List Char := "SELECT COUNT(*) FROM t WHERE age = 25".data

/-- Query text `SELECT COUNT(x) FROM t`. -/
def qCountX : List Char := "SELECT COUNT(x) FROM t".data

/-- Query text `SELECT SUM(age) FROM t WHERE age = 25`. -/
def qSumAgeWhere : List Char := "SELECT SUM(age) FROM t WHERE age = 25".data

/-- Query text `SELECT SUM(age) FROM t`. -/
def qSumAge : List Char := "SELECT SUM(age) FROM t".data

/-- Query text `SELECT SUM(AGE) FROM t` (upper-case column). -/
def qSumAGE : List Char := "SELECT SUM(AGE) FROM t".data

/-- Query text `SELECT SUM(x) FROM t`. -/
def qSumX : List Char := "SELECT SUM(x) FROM t".data

/-- Query text `SELECT AVG(age) FROM t`. -/
def qAvgAge : List Char := "SELECT AVG(age) FROM t".data

/-- Query text `SELECT MIN(x) FROM t`. -/
def qMinX : List Char := "SELECT MIN(x) FROM t".data

/-- Query text `SELECT MAX(x) FROM t`. -/
def qMaxX : List Char := "SELECT MAX(x) FROM t".data

/-- Executor over rows `[[25], [40]]`, column `age`, `ε = 1`, `δ = 0`. -/
def exTwoAges : DPExecutor :=
  { data := [[Value.num 25], [Value.num 40]], columns := [cAge]
    epsilon := 1, delta := 0, start_time := 0 }

/-- Executor over rows `[[25], [40], [60]]`, column `age` (the AVG example
of §8), `ε = 1`. -/
def exThreeAges : DPExecutor :=
  { data := [[Value.num 25], [Value.num 40], [Value.num 60]], columns := [cAge]
    epsilon := 1, delta := 1/100000, start_time := 0 }

/-- Bounds `{age: [0, 100]}`. -/
def bAge0100 : BoundsMap := [(cAge, 0, 100)]

/-- Executor over the single row `[[100]]`, column `x`. -/
def exHundred : DPExecutor :=
  { data := [[Value.num 100]], columns := [cX]
    epsilon := 1, delta := 0, start_time := 0 }

/-- Bounds `{x: [0, 10]}`. -/
def bX010 : BoundsMap := [(cX, 0, 10)]

/-- Executor over rows `[[None], [1]]`, column `x`. -/
def exNullOne : DPExecutor :=
  { data := [[Value.null], [Value.num 1]], columns := [cX]
    epsilon := 1, delta := 0, start_time := 0 }

/-- Executor over the single row `[[5]]`, column `x`. -/
def exFive : DPExecutor :=
  { data := [[Value.num 5]], columns := [cX]
    epsilon := 1, delta := 0, start_time := 0 }

/-- Inverted bounds `{x: [10, 0]}` (lower 10 > upper 0). -/
def bXInverted : BoundsMap := [(cX, 10, 0)]

/-- Executor over the single row `[[25]]`, column `age`. -/
def exOneAge : DPExecutor :=
  { data := [[Value.num 25]], columns := [cAge]
    epsilon := 1, delta := 0, start_time := 0 }

/-- Executor over the single all-missing row `[[None]]`, column `x`. -/
def exAllNull : DPExecutor :=
  { data := [[Value.null]], columns := [cX]
    epsilon := 1, delta := 0, start_time := 0 }

/-- HE dataset with the single non-integer value `2.5` in column `x`. -/
def dataHalf : List (List Value) := [[Value.num (5/2)]]

/-- Summing a constant list gives length times the constant. -/
theorem sum_map_const_q (l : List ℚ) (b : ℚ) :
    (l.map (fun _ => b)).sum = (l.length : ℚ) * b := by
  induction l with
  | nil => simp
  | cons h t ih =>
    simp [ih]
    ring

/-- Shared evaluation of `HeQueryExecutor.execute_count` on a named
column: the decrypted homomorphic sum of the 0/1 indicator vector is the
number of non-missing cells. -/
theorem he_count_value (data : List (List Value)) (columns : List (List Char))
    (c : List Char) (cells : List Value)
    (hdf : dfColumn data columns c = some cells) :
    he_execute_count data columns (some c)
      = some { success := true
               result := [(sCount, (cells.countP notna : ℚ))]
               operation := sCount
               records_encrypted := cells.length } := by
  have hval : ((truncQ (heSumVector
      (cells.map fun v => if notna v then (1 : ℚ) else 0)) : ℤ) : ℚ)
      = (cells.countP notna : ℚ) := by
    rw [heSumVector, sum_indicator_eq_countP, truncQ_natCast]
    push_cast
    rfl
  simp only [he_execute_count, hdf, hval, List.length_map]

/-- Claim C10: executing any query leaves the executor's state unchanged —
the `data`, `columns`, `epsilon` and `delta` fields of `DPExecutor` are
identical before and after `execute_query`, for every query text, bounds
mapping and noise draw. -/
theorem execute_query_preserves_state (ex : DPExecutor) (query : List Char)
    (bounds : BoundsMap) (noise1 noise2 : ℚ) :
    (execute_query ex query bounds noise1 noise2).1.data = ex.data ∧
    (execute_query ex query bounds noise1 noise2).1.columns = ex.columns ∧
    (execute_query ex query bounds noise1 noise2).1.epsilon = ex.epsilon ∧
    (execute_query ex query bounds noise1 noise2).1.delta = ex.delta := by
  simp only [execute_query]
  repeat' split
  all_goals exact ⟨rfl, rfl, rfl, rfl⟩

/-- Claim C3: for every AVG query that resolves its column, the executor
splits the total epsilon exactly in half between the sum sub-mechanism
(sensitivity `upper - lower`, noise scale `(upper - lower)/(ε/2)`) and
the count sub-mechanism (sensitivity 1), floors the noisy count at 1
before dividing noisy-sum by noisy-count, and reports
`epsilon_consumed = ε` (the caller's undivided epsilon, never `ε/2`). -/
theorem avg_epsilon_split (ex : DPExecutor) (query : List Char)
    (bounds : BoundsMap) (noise_sum noise_count : ℚ) (column : List Char)
    (hcol : _extract_column query sAvg = some column)
    (hok : ¬(column = [] ∨ column ∉ ex.columns)) :
    (_execute_avg ex query bounds noise_sum noise_count).epsilon_split_sum = ex.epsilon / 2 ∧
    (_execute_avg ex query bounds noise_sum noise_count).epsilon_split_count = ex.epsilon / 2 ∧
    (_execute_avg ex query bounds noise_sum noise_count).epsilon_consumed = ex.epsilon ∧
    (_execute_avg ex query bounds noise_sum noise_count).sensitivity_sum
      = pyRoundTo 2 ((resolveBoundsSA ex bounds column).2 - (resolveBoundsSA ex bounds column).1) ∧
    (_execute_avg ex query bounds noise_sum noise_count).sensitivity_count = 1 ∧
    (_execute_avg ex query bounds noise_sum noise_count).noise_scale
      = pyRoundTo 3 (((resolveBoundsSA ex bounds column).2 - (resolveBoundsSA ex bounds column).1)
          / (ex.epsilon / 2)) ∧
    (_execute_avg ex query bounds noise_sum noise_count).noisy_count
      = pyRoundTo 2 (qmax 1
          (((clampedColumn ex column (resolveBoundsSA ex bounds column).1
              (resolveBoundsSA ex bounds column).2).length : ℚ) + noise_count)) ∧
    (_execute_avg ex query bounds noise_sum noise_count).result
      = [(sAverage, pyRoundTo 2
          (((clampedColumn ex column (resolveBoundsSA ex bounds column).1
               (resolveBoundsSA ex bounds column).2).sum + noise_sum)
            / qmax 1 (((clampedColumn ex column (resolveBoundsSA ex bounds column).1
               (resolveBoundsSA ex bounds column).2).length : ℚ) + noise_count)))] := by
  simp only [_execute_avg, hcol]
  rw [if_neg hok]
  exact ⟨rfl, rfl, rfl, rfl, rfl, rfl, rfl, rfl⟩

/-- Witness for C3's theorem at the §8 example: rows `[[25],[40],[60]]`,
bounds `{age: [0,100]}`, `ε = 1`, zero noise draws. -/
theorem avg_epsilon_split_witness :
    (_execute_avg exThreeAges qAvgAge bAge0100 0 0).epsilon_split_sum
      = exThreeAges.epsilon / 2 ∧
    (_execute_avg exThreeAges qAvgAge bAge0100 0 0).epsilon_split_count
      = exThreeAges.epsilon / 2 ∧
    (_execute_avg exThreeAges qAvgAge bAge0100 0 0).epsilon_consumed = exThreeAges.epsilon := by
  have h := avg_epsilon_split exThreeAges qAvgAge bAge0100 0 0 cAge (by decide) (by decide)
  exact ⟨h.1, h.2.1, h.2.2.1⟩

/-- Claim C1 (counterexample): `SELECT COUNT(*) FROM t WHERE age = 25`
over rows `[[25],[40]]` reports a true count of 2 (and, with a zero noise
draw, a result of 2), while the WHERE-filtered subset the claim requires
has exactly 1 row — so the filter was not applied. -/
theorem count_where_ignored_cex :
    (execute_query exTwoAges qCountWhere [] 0 0).2.true_count = 2 ∧
    (execute_query exTwoAges qCountWhere [] 0 0).2.result = [(sCount, 2)] ∧
    (specFilteredRows exTwoAges.data exTwoAges.columns [(cAge, Value.num 25)]).length = 1 := by
  decide

/-- Claim C1 (amended): the executor never parses a WHERE clause — every
COUNT query's true count is the full dataset's row count, and every SUM
query aggregates the numeric cells of the entire dataset (the number of
clamped values equals the number of numeric cells over all rows). -/
theorem aggregates_use_full_dataset :
    (∀ (ex : DPExecutor) (query : List Char) (bounds : BoundsMap) (noise1 noise2 : ℚ),
      containsSub kwCount (lowerStr query) = true →
      (execute_query ex query bounds noise1 noise2).2.true_count = ex.data.length) ∧
    (∀ (ex : DPExecutor) (query : List Char) (bounds : BoundsMap) (noise : ℚ)
      (column : List Char), _extract_column query sSum = some column →
      ¬(column = [] ∨ column ∉ ex.columns) →
      (_execute_sum ex query bounds noise).clamped_values
        = (numCells ex.data (pyIndex column ex.columns)).length) := by
  constructor
  · intro ex query bounds noise1 noise2 h
    simp only [execute_query, h, if_true, _execute_count]
  · intro ex query bounds noise column hcol hok
    simp only [_execute_sum, hcol]
    rw [if_neg hok]
    simp only [clampedColumn, List.length_map]

/-- Witness for C1's amended theorem at WHERE-carrying queries. -/
theorem aggregates_use_full_dataset_witness :
    (execute_query exTwoAges qCountWhere [] 0 0).2.true_count = exTwoAges.data.length ∧
    (_execute_sum exTwoAges qSumAgeWhere [] 0).clamped_values
      = (numCells exTwoAges.data (pyIndex cAge exTwoAges.columns)).length :=
  ⟨aggregates_use_full_dataset.1 exTwoAges qCountWhere [] 0 0 (by decide),
   aggregates_use_full_dataset.2 exTwoAges qSumAgeWhere [] 0 cAge (by decide) (by decide)⟩

/-- Claim C2 (counterexample): for the SUM query over the single
non-integer value `2.5` with no bounds, the HE pipeline reports
`epsilon_consumed = 0` but returns 2, while the true (un-noised,
bound-clamped) column sum is `5/2` — `astype(int)` truncates toward zero
before summing, so the result is not the exact true statistic. -/
theorem he_sum_truncation_cex :
    (heMain qSumX dataHalf [cX] []).result = [(sSum, 2)] ∧
    (heMain qSumX dataHalf [cX] []).epsilon_consumed = some 0 ∧
    specTrueClampedSum ((dfColumn dataHalf [cX] cX).getD []) none = 5/2 ∧
    (2 : ℚ) ≠ 5/2 := by
  decide

/-- Claim C2 (amended): every COUNT and SUM envelope assembled by the HE
`main` reports `epsilon_consumed = 0` and `delta = 0` with no noise, and
the result is the exact statistic over the *integer-truncated* data:
COUNT (with or without a column) is the exact non-missing/row count, and
SUM is the exact sum of the column's non-missing values truncated toward
zero by `astype(int)` and then clamped to the caller bounds — which equals
the true bound-clamped column sum whenever the column is integer-valued. -/
theorem he_exact_zero_budget :
    (∀ (data : List (List Value)) (columns : List (List Char)) (c : List Char)
      (bounds : BoundsMap) (cells : List Value), dfColumn data columns c = some cells →
      (heMainParsed { operation := sCount, column := some c } data columns bounds).epsilon_consumed
        = some 0 ∧
      (heMainParsed { operation := sCount, column := some c } data columns bounds).delta = some 0 ∧
      (heMainParsed { operation := sCount, column := some c } data columns bounds).result
        = [(sCount, (cells.countP notna : ℚ))]) ∧
    (∀ (data : List (List Value)) (columns : List (List Char)) (bounds : BoundsMap),
      (heMainParsed { operation := sCount, column := none } data columns bounds).epsilon_consumed
        = some 0 ∧
      (heMainParsed { operation := sCount, column := none } data columns bounds).delta = some 0 ∧
      (heMainParsed { operation := sCount, column := none } data columns bounds).result
        = [(sCount, (data.length : ℚ))]) ∧
    (∀ (data : List (List Value)) (columns : List (List Char)) (c : List Char)
      (bounds : BoundsMap) (cells : List Value) (ints : List ℤ),
      dfColumn data columns c = some cells →
      astypeInt (cells.filter notna) = some ints → ints ≠ [] →
      (heMainParsed { operation := sSum, column := some c } data columns bounds).epsilon_consumed
        = some 0 ∧
      (heMainParsed { operation := sSum, column := some c } data columns bounds).delta = some 0 ∧
      (heMainParsed { operation := sSum, column := some c } data columns bounds).result
        = [(sSum, ((truncQ (clampOpt (lookupBounds bounds c) ints).sum : ℤ) : ℚ))]) := by
  refine ⟨?_, ?_, ?_⟩
  · intro data columns c bounds cells hdf
    have hmain : heMainParsed { operation := sCount, column := some c } data columns bounds
        = heAddMeta { success := true
                      result := [(sCount, (cells.countP notna : ℚ))]
                      operation := sCount
                      records_encrypted := cells.length } := by
      simp only [heMainParsed, he_count_value data columns c cells hdf]
      rfl
    rw [hmain]
    exact ⟨rfl, rfl, rfl⟩
  · intro data columns bounds
    have hval : ((truncQ (heSumVector (List.replicate data.length (1 : ℚ))) : ℤ) : ℚ)
        = (data.length : ℚ) := by
      rw [heSumVector, List.sum_replicate, nsmul_eq_mul, mul_one, truncQ_natCast]
      push_cast
      rfl
    have hmain : heMainParsed { operation := sCount, column := none } data columns bounds
        = heAddMeta { success := true
                      result := [(sCount, (data.length : ℚ))]
                      operation := sCount
                      records_encrypted := (List.replicate data.length (1 : ℚ)).length } := by
      simp only [heMainParsed, he_execute_count, hval]
      rfl
    rw [hmain]
    exact ⟨rfl, rfl, rfl⟩
  · intro data columns c bounds cells ints hdf hast hne
    have hexec : he_execute_sum data columns c (lookupBounds bounds c)
        = some { success := true
                 result := [(sSum, ((truncQ (clampOpt (lookupBounds bounds c) ints).sum : ℤ) : ℚ))]
                 operation := sSum
                 records_encrypted := (clampOpt (lookupBounds bounds c) ints).length
                 bounds_applied := (lookupBounds bounds c).isSome } := by
      simp only [he_execute_sum, hdf, hast]
      rw [if_neg hne]
      rfl
    have hmain : heMainParsed { operation := sSum, column := some c } data columns bounds
        = heAddMeta { success := true
                      result := [(sSum, ((truncQ (clampOpt (lookupBounds bounds c) ints).sum : ℤ) : ℚ))]
                      operation := sSum
                      records_encrypted := (clampOpt (lookupBounds bounds c) ints).length
                      bounds_applied := (lookupBounds bounds c).isSome } := by
      simp only [heMainParsed, hexec]
      rfl
    rw [hmain]
    exact ⟨rfl, rfl, rfl⟩

/-- Witness for C2's amended theorem over the integer column `[[25],[40]]`. -/
theorem he_exact_zero_budget_witness :
    (heMainParsed { operation := sCount, column := some cAge } exTwoAges.data [cAge] []).result
      = [(sCount, (([Value.num 25, Value.num 40].countP notna : ℕ) : ℚ))] ∧
    (heMainParsed { operation := sSum, column := some cAge } exTwoAges.data [cAge] []).result
      = [(sSum, ((truncQ (clampOpt (lookupBounds [] cAge) [25, 40]).sum : ℤ) : ℚ))] :=
  ⟨(he_exact_zero_budget.1 exTwoAges.data [cAge] cAge []
      [Value.num 25, Value.num 40] (by decide)).2.2,
   (he_exact_zero_budget.2.2 exTwoAges.data [cAge] cAge []
      [Value.num 25, Value.num 40] [25, 40] (by decide) (by decide) (by decide)).2.2⟩

/-- Claim C4 (counterexample): `SELECT MIN(x) FROM t` over the single row
`[[100]]` with bounds `{x: [0, 10]}` and a zero noise draw succeeds and
returns 100 — the value was not clamped into `[0, 10]` before taking the
minimum and the output was not re-clamped, so it lies outside the bounds. -/
theorem minmax_unclamped_cex :
    (execute_query exHundred qMinX bX010 0 0).2.success = true ∧
    (execute_query exHundred qMinX bX010 0 0).2.result = [(sMin, 100)] ∧
    lookupBounds bX010 cX = some (0, 10) ∧
    ¬ ((100 : ℚ) ≤ 10) := by
  decide

/-- Claim C4 (amended): MIN and MAX never clamp — the returned value is
`round(raw_min_or_max + noise, 2)` where the extremum is taken over the
raw (unclamped) numeric cells, and no re-clamping into `[lower, upper]`
is applied to the output, which can therefore lie outside the bounds. -/
theorem minmax_raw_values_no_reclamp :
    (∀ (ex : DPExecutor) (query : List Char) (bounds : BoundsMap) (noise : ℚ)
      (column : List Char), _extract_column query sMin = some column →
      ¬(column = [] ∨ column ∉ ex.columns) →
      numCells ex.data (pyIndex column ex.columns) ≠ [] →
      (_execute_min ex query bounds noise).result
        = [(sMin, pyRoundTo 2
            ((pyMin (numCells ex.data (pyIndex column ex.columns))).getD 0 + noise))]) ∧
    (∀ (ex : DPExecutor) (query : List Char) (bounds : BoundsMap) (noise : ℚ)
      (column : List Char), _extract_column query sMax = some column →
      ¬(column = [] ∨ column ∉ ex.columns) →
      numCells ex.data (pyIndex column ex.columns) ≠ [] →
      (_execute_max ex query bounds noise).result
        = [(sMax, pyRoundTo 2
            ((pyMax (numCells ex.data (pyIndex column ex.columns))).getD 0 + noise))]) := by
  constructor
  · intro ex query bounds noise column hcol hok hvals
    simp only [_execute_min, hcol]
    rw [if_neg hok, if_neg hvals]
  · intro ex query bounds noise column hcol hok hvals
    simp only [_execute_max, hcol]
    rw [if_neg hok, if_neg hvals]

/-- Witness for C4's amended theorem at the `[[100]]`, `{x: [0,10]}`
instance. -/
theorem minmax_raw_values_no_reclamp_witness :
    (_execute_min exHundred qMinX bX010 0).result
      = [(sMin, pyRoundTo 2
          ((pyMin (numCells exHundred.data (pyIndex cX exHundred.columns))).getD 0 + 0))] ∧
    (_execute_max exHundred qMaxX bX010 0).result
      = [(sMax, pyRoundTo 2
          ((pyMax (numCells exHundred.data (pyIndex cX exHundred.columns))).getD 0 + 0))] :=
  ⟨minmax_raw_values_no_reclamp.1 exHundred qMinX bX010 0 cX (by decide) (by decide) (by decide),
   minmax_raw_values_no_reclamp.2 exHundred qMaxX bX010 0 cX (by decide) (by decide) (by decide)⟩

/-- Claim C5 (counterexample): `SELECT COUNT(x) FROM t` over
`[[None], [1]]` uses a true count of 2 (all rows) under the DP executor,
although only 1 row has a non-missing value in column `x`. -/
theorem dp_count_column_cex :
    (execute_query exNullOne qCountX [] 0 0).2.true_count = 2 ∧
    (execute_query exNullOne qCountX [] 0 0).2.result = [(sCount, 2)] ∧
    ((dfColumn exNullOne.data exNullOne.columns cX).getD []).countP notna = 1 := by
  decide

/-- Claim C5 (amended): only the HE executor implements the non-null
count — `execute_count` with a named column counts exactly the
non-missing cells — while the DP executor's COUNT always uses the total
row count `len(self.data)`, whatever the parenthesized argument was. -/
theorem count_column_semantics :
    (∀ (data : List (List Value)) (columns : List (List Char)) (c : List Char)
      (bounds : BoundsMap) (cells : List Value), dfColumn data columns c = some cells →
      (heMainParsed { operation := sCount, column := some c } data columns bounds).result
        = [(sCount, (cells.countP notna : ℚ))]) ∧
    (∀ (ex : DPExecutor) (query : List Char) (bounds : BoundsMap) (noise1 noise2 : ℚ),
      containsSub kwCount (lowerStr query) = true →
      (execute_query ex query bounds noise1 noise2).2.true_count = ex.data.length) := by
  constructor
  · intro data columns c bounds cells hdf
    have hmain : heMainParsed { operation := sCount, column := some c } data columns bounds
        = heAddMeta { success := true
                      result := [(sCount, (cells.countP notna : ℚ))]
                      operation := sCount
                      records_encrypted := cells.length } := by
      simp only [heMainParsed, he_count_value data columns c cells hdf]
      rfl
    rw [hmain]
    rfl
  · intro ex query bounds noise1 noise2 h
    simp only [execute_query, h, if_true, _execute_count]

/-- Witness for C5's amended theorem at the `[[None],[1]]` instance. -/
theorem count_column_semantics_witness :
    (heMainParsed { operation := sCount, column := some cX } exNullOne.data [cX] []).result
      = [(sCount, (([Value.null, Value.num 1].countP notna : ℕ) : ℚ))] ∧
    (execute_query exNullOne qCountX [] 0 0).2.true_count = exNullOne.data.length :=
  ⟨count_column_semantics.1 exNullOne.data [cX] cX [] [Value.null, Value.num 1] (by decide),
   count_column_semantics.2 exNullOne qCountX [] 0 0 (by decide)⟩

/-- Claim C6 (counterexample): with inverted caller bounds
`{x: [10, 0]}` (lower 10 > upper 0), `SELECT SUM(x) FROM t` over `[[5]]`
returns a success envelope (sum 10 with a zero noise draw) instead of
failing with an InvalidBounds error. -/
theorem inverted_bounds_success_cex :
    (execute_query exFive qSumX bXInverted 0 0).2.success = true ∧
    (execute_query exFive qSumX bXInverted 0 0).2.result = [(sSum, 10)] ∧
    lookupBounds bXInverted cX = some (10, 0) ∧ (0 : ℚ) < 10 := by
  decide

/-- Claim C6 (amended): no bounds validation exists — when the caller
supplies `lower > upper`, the clamp `max(lower, min(upper, x))` collapses
every numeric value to `lower`, and a success envelope is returned whose
sum is `round(lower * count + noise, 2)`. -/
theorem inverted_bounds_clamp_to_lower (ex : DPExecutor) (query : List Char)
    (bounds : BoundsMap) (noise : ℚ) (column : List Char) (lb ub : ℚ)
    (hcol : _extract_column query sSum = some column)
    (hok : ¬(column = [] ∨ column ∉ ex.columns))
    (hb : lookupBounds bounds column = some (lb, ub))
    (hlt : ub < lb) :
    (_execute_sum ex query bounds noise).success = true ∧
    (_execute_sum ex query bounds noise).result
      = [(sSum, pyRoundTo 2
          (((numCells ex.data (pyIndex column ex.columns)).length : ℚ) * lb + noise))] := by
  have hres : resolveBoundsSA ex bounds column = (lb, ub) := by
    simp [resolveBoundsSA, hb]
  have hclamp : clampedColumn ex column lb ub
      = (numCells ex.data (pyIndex column ex.columns)).map (fun _ => lb) := by
    apply List.map_congr_left
    intro x _
    have h1 : qmin ub x ≤ ub := by
      simp only [qmin]
      split
      · exact le_rfl
      · next hx => exact le_of_not_le hx
    have h2 : ¬ lb ≤ qmin ub x := by linarith
    simp only [qmax, h2, if_false]
  constructor
  · simp only [_execute_sum, hcol]
    rw [if_neg hok]
  · simp only [_execute_sum, hcol]
    rw [if_neg hok]
    simp only [hres, hclamp, sum_map_const_q]

/-- Witness for C6's amended theorem at the `[[5]]`, `{x: [10, 0]}`
instance. -/
theorem inverted_bounds_clamp_to_lower_witness :
    (_execute_sum exFive qSumX bXInverted 0).success = true ∧
    (_execute_sum exFive qSumX bXInverted 0).result
      = [(sSum, pyRoundTo 2
          (((numCells exFive.data (pyIndex cX exFive.columns)).length : ℚ) * 10 + 0))] :=
  inverted_bounds_clamp_to_lower exFive qSumX bXInverted 0 cX 10 0
    (by decide) (by decide) (by decide) (by decide)

/-- Claim C7 (counterexample): `SELECT SUM(AGE) FROM t` against the
column list `[age]` fails (column-not-found), even though `AGE` matches
`age` case-insensitively — execution-time column lookup is not
case-insensitive. -/
theorem case_sensitive_lookup_cex :
    (execute_query exOneAge qSumAGE [] 0 0).2.success = false ∧
    _extract_column qSumAGE sSum = some cAGE ∧
    lowerStr cAGE ∈ exOneAge.columns := by
  decide

/-- Claim C7 (amended): column lookup at execution time is
case-sensitive — the SUM path succeeds exactly when the column name
extracted from the query, in its original case, is literally an element
of the executor's column list. -/
theorem column_lookup_case_sensitive (ex : DPExecutor) (query : List Char)
    (bounds : BoundsMap) (noise : ℚ) (column : List Char)
    (hcol : _extract_column query sSum = some column) (hne : column ≠ []) :
    ((_execute_sum ex query bounds noise).success = true ↔ column ∈ ex.columns) := by
  simp only [_execute_sum, hcol]
  by_cases h : column ∈ ex.columns
  · rw [if_neg (by simp [hne, h])]
    simp [h]
  · rw [if_pos (Or.inr h)]
    simp [h]

/-- Witness for C7's amended theorem: the exact-case query
`SELECT SUM(age) FROM t` resolves `age`. -/
theorem column_lookup_case_sensitive_witness :
    ((_execute_sum exOneAge qSumAge [] 0).success = true ↔ cAge ∈ exOneAge.columns) :=
  column_lookup_case_sensitive exOneAge qSumAge [] 0 cAge (by decide) (by decide)

/-- Claim C8: at the attainable boundary draw `u = -0.5` (i.e.
`random.random()` returning exactly `0.0`), `_sample_laplace` evaluates
`math.log` at `1 - 2*|u| = 0`, outside `math.log`'s domain — the sampler
does not special-case or clamp `u`, so it does not produce a finite
number there (Python raises `ValueError: math domain error`), for every
scale and location and whatever the logarithm's values elsewhere. -/
theorem sample_laplace_boundary_not_finite (ln : ℚ → ℚ) (loc scale : ℚ) :
    sample_laplace ln loc scale (-(1/2)) = none := by
  have h : (1 : ℚ) - 2 * |(-(1/2) : ℚ)| = 0 := by
    rw [abs_neg, abs_of_nonneg (by norm_num : (0 : ℚ) ≤ 1/2)]
    norm_num
  simp only [sample_laplace, h]
  simp

/-- Claim C9 (counterexample): SUM over the all-missing column `x` of
`[[None]]` with no caller bounds returns a success envelope with sum 0
under both executors (DP with a zero noise draw, and HE's explicit early
`sum: 0` return) — there is no NoNumericData failure. -/
theorem sum_no_numeric_silent_success_cex :
    (execute_query exAllNull qSumX [] 0 0).2.success = true ∧
    (execute_query exAllNull qSumX [] 0 0).2.result = [(sSum, 0)] ∧
    (heMain qSumX exAllNull.data [cX] []).success = true ∧
    (heMain qSumX exAllNull.data [cX] []).result = [(sSum, 0)] := by
  decide

/-- Claim C9 (amended): a SUM over a column with no non-missing numeric
values and no caller bounds succeeds silently — the DP path defaults
bounds to `(0, 100)`, sums the empty clamped list to 0 and returns
`round(noise, 2)` as the sum, and the HE path returns an exact `sum: 0`
envelope with `epsilon_consumed = 0`. -/
theorem sum_empty_numeric_success :
    (∀ (ex : DPExecutor) (query : List Char) (bounds : BoundsMap) (noise : ℚ)
      (column : List Char), _extract_column query sSum = some column →
      ¬(column = [] ∨ column ∉ ex.columns) →
      lookupBounds bounds column = none →
      numCells ex.data (pyIndex column ex.columns) = [] →
      (_execute_sum ex query bounds noise).success = true ∧
      (_execute_sum ex query bounds noise).result = [(sSum, pyRoundTo 2 noise)] ∧
      (_execute_sum ex query bounds noise).boundsUsed = some (0, 100)) ∧
    (∀ (data : List (List Value)) (columns : List (List Char)) (c : List Char)
      (bounds : BoundsMap), c ∈ columns →
      ((dfColumn data columns c).getD []).filter notna = [] →
      (heMainParsed { operation := sSum, column := some c } data columns bounds).success = true ∧
      (heMainParsed { operation := sSum, column := some c } data columns bounds).result
        = [(sSum, 0)] ∧
      (heMainParsed { operation := sSum, column := some c } data columns bounds).epsilon_consumed
        = some 0) := by
  constructor
  · intro ex query bounds noise column hcol hok hb hempty
    have hres : resolveBoundsSA ex bounds column = (0, 100) := by
      simp [resolveBoundsSA, hb, hempty, pyMin, pyMax]
    have hclamp : clampedColumn ex column 0 100 = [] := by
      simp [clampedColumn, hempty]
    refine ⟨?_, ?_, ?_⟩
    · simp only [_execute_sum, hcol]
      rw [if_neg hok]
    · simp only [_execute_sum, hcol]
      rw [if_neg hok]
      simp [hres, hclamp]
    · simp only [_execute_sum, hcol]
      rw [if_neg hok]
      simp [hres]
  · intro data columns c bounds hc hfilter
    have hdf : dfColumn data columns c
        = some (data.map (fun row => getCell row (pyIndex c columns))) := by
      simp [dfColumn, hc]
    have hcells : ((dfColumn data columns c).getD [])
        = data.map (fun row => getCell row (pyIndex c columns)) := by
      simp [hdf]
    rw [hcells] at hfilter
    have hexec : he_execute_sum data columns c (lookupBounds bounds c)
        = some { success := true, result := [(sSum, 0)] } := by
      simp only [he_execute_sum, hdf, hfilter]
      rfl
    have hstep : heMainParsed { operation := sSum, column := some c } data columns bounds
        = heAddMeta { success := true, result := [(sSum, 0)] } := by
      simp only [heMainParsed, hexec]
      rfl
    rw [hstep]
    refine ⟨rfl, rfl, rfl⟩

/-- Witness for C9's amended theorem at the `[[None]]` instance. -/
theorem sum_empty_numeric_success_witness :
    ((_execute_sum exAllNull qSumX [] 0).success = true ∧
     (_execute_sum exAllNull qSumX [] 0).result = [(sSum, pyRoundTo 2 0)] ∧
     (_execute_sum exAllNull qSumX [] 0).boundsUsed = some (0, 100)) ∧
    ((heMainParsed { operation := sSum, column := some cX } exAllNull.data [cX] []).success
        = true ∧
     (heMainParsed { operation := sSum, column := some cX } exAllNull.data [cX] []).result
        = [(sSum, 0)] ∧
     (heMainParsed { operation := sSum, column := some cX } exAllNull.data [cX] []).epsilon_consumed
        = some 0) :=
  ⟨sum_empty_numeric_success.1 exAllNull qSumX [] 0 cX (by decide) (by decide) (by decide)
     (by decide),
   sum_empty_numeric_success.2 exAllNull.data [cX] cX [] (by decide) (by decide)⟩
